import Mathlib

/-!
Verification development for the skillsmp-searcher repository
(scripts: utils.py, skill_diff.py, check_updates.py, skill_downloader.py).

The Python code is shallowly embedded: file contents and environment
variables become `Option String` parameters (`none` = absent / read error),
the network becomes an explicit transport simulation value, and the
filesystem mutations of the install engine become explicit state passing
over a record of directory names.  Python truthiness of strings is
modelled by comparison with the empty string.

String operations (`strip`, `split`, `lower`, slicing, `in`) are given
structurally recursive definitions over `List Char` so that every
definition evaluates on concrete inputs inside the kernel.
-/

/- ## Structurally recursive string primitives (Python str semantics) -/

/-- Python's `s.split(sep)` for a one-character separator, on char lists.
`splitOnChar sep [] = [[]]`, matching Python's `"".split(sep) == [""]`. -/
def splitOnChar (sep : Char) : List Char → List (List Char)
  | [] => [[]]
  | c :: rest =>
    if c = sep then [] :: splitOnChar sep rest
    else
      match splitOnChar sep rest with
      | g :: gs => (c :: g) :: gs
      | [] => [[c]]

/-- Python's `s.split(sep)` for a one-character separator, on strings. -/
def sSplit (s : String) (sep : Char) : List String :=
  (splitOnChar sep s.toList).map List.asString

/-- Python's `s.strip()` on char lists: drop whitespace from both ends. -/
def trimChars (l : List Char) : List Char :=
  ((l.dropWhile Char.isWhitespace).reverse.dropWhile Char.isWhitespace).reverse

/-- Python's `s.strip()`. -/
def sTrim (s : String) : String := (trimChars s.toList).asString

/-- Python's `s.startswith(p)`. -/
def sStartsWith (s p : String) : Bool := p.toList.isPrefixOf s.toList

/-- Python's `needle in haystack` substring test, on char lists. -/
def charsContain (needle : List Char) : List Char → Bool
  | [] => needle.isEmpty
  | c :: rest => needle.isPrefixOf (c :: rest) || charsContain needle rest

/-- Python's `needle in haystack` for strings. -/
def strContains (needle hay : String) : Bool :=
  charsContain needle.toList hay.toList

/-- Python's `s.lower()` (ASCII case folding). -/
def sLower (s : String) : String := (s.toList.map Char.toLower).asString

/-- Python's `s[:n]` slice. -/
def sTake (s : String) (n : Nat) : String := (s.toList.take n).asString

/-- Python's `s[n:]` slice. -/
def sDrop (s : String) (n : Nat) : String := (s.toList.drop n).asString

/-- Python truthiness of an optional string (`None` and `""` are falsy). -/
def pyTruthy (o : Option String) : Bool :=
  !((o.getD "") == "")

/- ## Credential resolver (utils.load_api_key, utils.make_api_request) -/

/-- The message of the `APIKeyError` raised when no source yields a key
(`utils.load_api_key`, final `raise`; first line of the real message). -/
def noKeyMsg : String := "No valid API key found."

/-- Model of `utils.load_api_key`, template-file stage: read `references/api_key.txt`,
strip it, and accept it only if non-empty, not starting with a comment
character, and not containing the placeholder marker; otherwise raise
`APIKeyError`.  `tmpl = none` models `FileNotFoundError`. -/
def tryTemplateFile (tmpl : Option String) : Except String String :=
  match tmpl with
  | some c =>
    if !(sTrim c == "") && !(sStartsWith (sTrim c) "#") &&
        !(strContains "your_api_key_here" (sTrim c)) then
      Except.ok (sTrim c)
    else Except.error noKeyMsg
  | none => Except.error noKeyMsg

/-- Model of `utils.load_api_key`: environment variable `SKILLSMP_API_KEY` (used
untrimmed when truthy), then `references/api_key_real.txt` (stripped,
accepted when non-empty and not starting with `#`), then the template file. -/
def load_api_key (env devFile tmpl : Option String) : Except String String :=
  if pyTruthy env then Except.ok (env.getD "")
  else
    match devFile with
    | some c =>
      if !(sTrim c == "") && !(sStartsWith (sTrim c) "#") then Except.ok (sTrim c)
      else tryTemplateFile tmpl
    | none => tryTemplateFile tmpl

/-- Key resolution at the top of `utils.make_api_request`:
`if api_key is None: api_key = load_api_key()`.  Note the check is
`is None`, not truthiness: an explicit empty string is used as-is. -/
def resolve_request_key (explicitKey env devFile tmpl : Option String) :
    Except String String :=
  match explicitKey with
  | some k => Except.ok k
  | none => load_api_key env devFile tmpl

/- ## HTTP request gateway (utils.make_api_request) -/

/-- The parseable part of a response body that `make_api_request` consults on
a 401: `error_data.get("error", {}).get("message", "Invalid API key")`. -/
structure BodyJson where
  errorMessage : Option String
deriving DecidableEq

/-- What the transport layer produced for one request: a response with a
status code and a body (`none` body = not parseable as JSON), a timeout, or
another `requests` transport exception with a detail string. -/
inductive TransportSim where
  | httpResponse (status : Nat) (body : Option BodyJson)
  | timedOut
  | requestExc (detail : String)
deriving DecidableEq

/-- How one call of `utils.make_api_request` terminates after the request was
issued.  `apiRequestError m` covers the `raise APIRequestError(m)` paths;
`jsonDecodeError` is an *uncaught* JSON decode error: on a 401 whose body is
not parseable JSON, `response.json()` raises inside the
`except requests.exceptions.HTTPError` handler, and an exception raised in
an `except` block is not caught by the sibling handlers of the same `try`. -/
inductive ApiOutcome where
  | success (body : BodyJson)
  | apiKeyError (msg : String)
  | apiRequestError (msg : String)
  | jsonDecodeError
deriving DecidableEq

/-- The `try`/`except` block of `utils.make_api_request`:
`raise_for_status` raises `HTTPError` for statuses 400-599; status 401 then
parses the body for the error message (generic `"Invalid API key"` when the
parsed object lacks one, uncaught decode error when the body is not JSON);
other HTTP errors, timeouts and transport errors become `APIRequestError`. -/
def api_request_outcome (timeoutSecs : Nat) : TransportSim → ApiOutcome
  | .httpResponse s b =>
    if 400 ≤ s ∧ s ≤ 599 then
      if s = 401 then
        match b with
        | some bj =>
          .apiRequestError
            ("API authentication failed: " ++ bj.errorMessage.getD "Invalid API key")
        | none => .jsonDecodeError
      else .apiRequestError ("HTTP error " ++ toString s)
    else
      match b with
      | some bj => .success bj
      | none => .apiRequestError "Request failed: invalid JSON body"
  | .timedOut =>
    .apiRequestError ("Request timed out after " ++ toString timeoutSecs ++ " seconds")
  | .requestExc d => .apiRequestError ("Request failed: " ++ d)

/-- Model of `utils.make_api_request`: resolve the key (explicit argument wins, else
the layered loader), then perform the request. -/
def make_api_request (explicitKey env devFile tmpl : Option String)
    (timeoutSecs : Nat) (t : TransportSim) : ApiOutcome :=
  match resolve_request_key explicitKey env devFile tmpl with
  | .error m => .apiKeyError m
  | .ok _ => api_request_outcome timeoutSecs t

/- Sanity examples (concrete evaluations of the embedding). -/

example : load_api_key (some "k1") (some "k2") none = .ok "k1" := rfl
example : load_api_key none (some " k2 ") none = .ok "k2" := rfl
example : load_api_key none (some "# c") (some "tk") = .ok "tk" := rfl
example : load_api_key none none (some "your_api_key_here") = .error noKeyMsg := rfl
example : load_api_key none none none = .error noKeyMsg := rfl
example :
    api_request_outcome 10 (.httpResponse 401 (some ⟨some "bad key"⟩)) =
      .apiRequestError "API authentication failed: bad key" := rfl

/- ## Manifest front-matter parsing (skill_diff.extract_frontmatter) -/

/-- One character of Python's `\w` class (ASCII reading). -/
def isWordChar (c : Char) : Bool := c.isAlphanum || c == '_'

/-- One line matched against `^(\w+):\s*(.+)$`
(`skill_diff.extract_frontmatter`, line 43).  The regex matches iff the line
starts with a non-empty run of word characters followed by `:` and at least
one further character; the captured value, after the greedy `\s*` and the
final `.strip()`, is the stripped remainder after the colon. -/
def parse_kv (l : String) : Option (String × String) :=
  let cs := l.toList
  let key := cs.takeWhile isWordChar
  match cs.drop key.length with
  | ':' :: rest =>
    if key.isEmpty || rest.isEmpty then none
    else some (key.asString, (trimChars rest).asString)
  | _ => none

/-- Python dict assignment `d[k] = v`: overwrite in place if the key exists,
else append. -/
def dictInsert (m : List (String × String)) (k v : String) :
    List (String × String) :=
  if (m.lookup k).isSome then
    m.map (fun p => if p.1 = k then (k, v) else p)
  else m ++ [(k, v)]

/-- The line loop of `skill_diff.extract_frontmatter`: `inFm` is the
`in_frontmatter` flag; a `---` line (after stripping) toggles it on the first
time and `break`s the second time; in between, `key: value` lines are added
to the dict. -/
def fmLoop (inFm : Bool) : List String → List (String × String) →
    List (String × String)
  | [], acc => acc
  | l :: ls, acc =>
    if sTrim l = "---" then
      if !inFm then fmLoop true ls acc else acc
    else if inFm then
      match parse_kv l with
      | some (k, v) => fmLoop inFm ls (dictInsert acc k v)
      | none => fmLoop inFm ls acc
    else fmLoop inFm ls acc

/-- Model of `skill_diff.extract_frontmatter` on the list of lines of the file:
only `content.split("\n")[:30]` is scanned. -/
def extract_frontmatter_lines (ls : List String) : List (String × String) :=
  fmLoop false (ls.take 30) []

/-- Model of `skill_diff.extract_frontmatter`: `none` models any read failure
(the function's blanket `except Exception: return {}`). -/
def extract_frontmatter (content : Option String) : List (String × String) :=
  match content with
  | none => []
  | some c => extract_frontmatter_lines (sSplit c '\n')

example :
    extract_frontmatter (some "---\nname: pdf-tools\nauthor:  A B \n---\nname: other") =
      [("name", "pdf-tools"), ("author", "A B")] := rfl
example : extract_frontmatter (some "name: pdf-tools") = [] := rfl
example : parse_kv "name:   " = some ("name", "") := rfl
example : parse_kv "name:" = none := rfl
example : parse_kv " name: x" = none := rfl

/- ## Local package registry (utils.list_installed_skills,
     check_updates.get_skill_name_from_md,
     check_updates.get_installed_skills_with_metadata) -/

/-- A directory nested one level below an installed package directory
(only used to express that the registry scans are non-recursive). -/
structure SubDirM where
  name : String
  files : List (String × String)
deriving DecidableEq

/-- An immediate child of the skills root: a file or directory name, whether
it is a directory, its files (name, content), its own subdirectories and its
stat mtime. -/
structure RootEntry where
  name : String
  isDir : Bool
  files : List (String × String)
  subdirs : List SubDirM
  mtime : Nat
deriving DecidableEq

/-- Model of `(item / "SKILL.md").exists()` / reading it: the content of the entry's
`SKILL.md` file, when present. -/
def skillMdContent (e : RootEntry) : Option String := e.files.lookup "SKILL.md"

/-- Lexicographic comparison of char lists (Python string ordering). -/
def charsLe : List Char → List Char → Bool
  | [], _ => true
  | _ :: _, [] => false
  | a :: as, b :: bs => if a = b then charsLe as bs else decide (a < b)

/-- Lexicographic `<=` on strings by code points. -/
def strLe (a b : String) : Bool := charsLe a.toList b.toList

/-- Insertion sort on strings (for Python's `sorted`). -/
def insertSorted (a : String) : List String → List String
  | [] => [a]
  | b :: rest => if strLe a b then a :: b :: rest else b :: insertSorted a rest

/-- Python's `sorted` on a list of strings. -/
def sortStrings : List String → List String
  | [] => []
  | a :: rest => insertSorted a (sortStrings rest)

/-- Model of `utils.list_installed_skills`: every immediate subdirectory that contains
a `SKILL.md` file, sorted by name.  No manifest field is consulted. -/
def list_installed_skills (root : List RootEntry) : List String :=
  sortStrings ((root.filter fun e => e.isDir && (skillMdContent e).isSome).map (·.name))

/-- Model of `check_updates.get_skill_name_from_md`: `re.search("^name:\\s*(.+)$", content,
re.MULTILINE)` — the first line anywhere in the file that starts with
`name:` followed by at least one character; the captured value, after the
greedy `\s*` and `.strip()`, is the stripped remainder.  `none` models both a
failed search and a read failure. -/
def get_skill_name_from_md (content : Option String) : Option String :=
  match content with
  | none => none
  | some c =>
    match (sSplit c '\n').find? (fun l => sStartsWith l "name:" && !(sDrop l 5 == "")) with
    | some l => some (sTrim (sDrop l 5))
    | none => none

/-- One record produced by `check_updates.get_installed_skills_with_metadata`. -/
structure InstalledSkill where
  name : String
  path : String
  localModified : Nat
deriving DecidableEq

/-- The body of the scan loop of
`check_updates.get_installed_skills_with_metadata` for one entry: skip
non-directories, entries without `SKILL.md`, and entries whose extracted
`name` is not truthy (`if not skill_name: continue` skips both `None` and
`""`). -/
def gismEntry (e : RootEntry) : Option InstalledSkill :=
  if !e.isDir then none
  else
    match skillMdContent e with
    | none => none
    | some c =>
      match get_skill_name_from_md (some c) with
      | some n => if n = "" then none else some ⟨n, e.name, e.mtime⟩
      | none => none

/-- Model of `check_updates.get_installed_skills_with_metadata`: immediate
subdirectories with a `SKILL.md` whose extracted `name` is truthy. -/
def get_installed_skills_with_metadata (root : List RootEntry) :
    List InstalledSkill :=
  root.filterMap gismEntry

example :
    list_installed_skills
      [⟨"b", true, [("SKILL.md", "x")], [], 0⟩,
       ⟨"a", true, [("SKILL.md", "---\nname: a\n---")], [], 0⟩,
       ⟨"c", true, [("README.md", "x")], [], 0⟩,
       ⟨"f", false, [("SKILL.md", "x")], [], 0⟩] = ["a", "b"] := rfl
example : get_skill_name_from_md (some "# hi\nname: pdf-tools\nrest") = some "pdf-tools" := rfl
example : get_skill_name_from_md (some "name:   \nname: real") = some "" := rfl
example :
    get_installed_skills_with_metadata
      [⟨"d", true, [("SKILL.md", "---\nname: tool\n---")], [], 7⟩,
       ⟨"e", true, [("SKILL.md", "no frontmatter")], [], 3⟩] =
      [⟨"tool", "d", 7⟩] := rfl

/- ## Package comparator (skill_diff.compare_versions,
     skill_diff.get_skill_details_from_skillsmp,
     check_updates.search_skill_on_skillsmp) -/

/-- One remote skill record as consumed from the API response (each field
read with `.get(key, default)`, so every field is optional). -/
structure RemoteSkill where
  name : Option String
  author : Option String
  description : Option String
  stars : Option Nat
  githubUrl : Option String
  skillUrl : Option String
  updatedAt : Option Nat
deriving DecidableEq

/-- One element appended to `differences["fields"]` by
`skill_diff.compare_versions`.  The `stars` entry has no local side. -/
inductive DiffEntry where
  | nameE (localV remoteV : String)
  | descE (localV remoteV : String)
  | authorE (localV remoteV : String)
  | starsE (remoteV : Nat)
deriving DecidableEq

/-- The `differences` dict built by `skill_diff.compare_versions`. -/
structure CompareResult where
  name_changed : Bool
  description_changed : Bool
  author_changed : Bool
  stars_changed : Bool
  fields : List DiffEntry
deriving DecidableEq

/-- Model of `skill_diff.compare_versions`: `name`, `description` and `author` are
each appended iff both sides are truthy and differ (the description entry
truncated to 100 characters per side); the `stars` entry is appended
unconditionally at the end. -/
def compare_versions (localFm : List (String × String)) (remote : RemoteSkill) :
    CompareResult :=
  let ln := (localFm.lookup "name").getD ""
  let rn := remote.name.getD ""
  let ld := (localFm.lookup "description").getD ""
  let rd := remote.description.getD ""
  let la := (localFm.lookup "author").getD ""
  let ra := remote.author.getD ""
  let nameC := !(ln == "") && !(rn == "") && !(ln == rn)
  let descC := !(ld == "") && !(rd == "") && !(ld == rd)
  let authC := !(la == "") && !(ra == "") && !(la == ra)
  { name_changed := nameC
    description_changed := descC
    author_changed := authC
    stars_changed := true
    fields :=
      (if nameC then [DiffEntry.nameE ln rn] else []) ++
      (if descC then [DiffEntry.descE (sTake ld 100) (sTake rd 100)] else []) ++
      (if authC then [DiffEntry.authorE la ra] else []) ++
      [DiffEntry.starsE (remote.stars.getD 0)] }

/-- The exact-match loop shared by `skill_diff.get_skill_details_from_skillsmp`
and `check_updates.search_skill_on_skillsmp`: the first record whose
`name` (via `.get("name", "")`, lowercased) equals the lowercased query. -/
def findExactMatch (skillName : String) : List RemoteSkill → Option RemoteSkill
  | [] => none
  | s :: rest =>
    if sLower (s.name.getD "") = sLower skillName then some s
    else findExactMatch skillName rest

/-- The `{success: ..., data: {skills: [...]}}` envelope as consumed by the
two search helpers. -/
structure SearchResp where
  success : Bool
  skills : List RemoteSkill
deriving DecidableEq

/-- Model of `check_updates.search_skill_on_skillsmp` (identical logic in
`skill_diff.get_skill_details_from_skillsmp`): `None` unless the envelope is
successful and non-empty; else the case-insensitive exact name match if one
exists, else the first (top-ranked) result. -/
def search_skill_on_skillsmp (skillName : String) (resp : SearchResp) :
    Option RemoteSkill :=
  if !resp.success then none
  else
    match resp.skills with
    | [] => none
    | s0 :: rest =>
      match findExactMatch skillName (s0 :: rest) with
      | some s => some s
      | none => some s0

/- ## Archive installation (utils.install_skill) -/

/-- Model of `first_item.split("/")[0]`: the first path component of a zip entry name
(`utils.install_skill`, line 264). -/
def topComponent (entry : String) : String :=
  ((sSplit entry '/').headD "")

/-- Model of `utils.install_skill`, modelled on the archive's entry-name list:
an empty archive raises `SkillsMPError("Skill file is empty")`; otherwise the
archive is extracted and the path returned is named after the first path
component of the first entry. -/
def install_skill (namelist : List String) : Except String String :=
  match namelist with
  | [] => Except.error "Skill file is empty"
  | first :: _ => Except.ok (topComponent first)

example : install_skill ["pdf-tools/SKILL.md"] = .ok "pdf-tools" := rfl
example : install_skill [] = .error "Skill file is empty" := rfl
example :
    search_skill_on_skillsmp "Foo-Skill"
      ⟨true, [⟨some "other", none, none, none, none, none, none⟩,
              ⟨some "foo-skill", none, none, none, none, none, none⟩]⟩ =
      some ⟨some "foo-skill", none, none, none, none, none, none⟩ := rfl
example :
    (compare_versions [("name", "a")]
      ⟨some "b", none, none, some 5, none, none, none⟩).fields =
      [DiffEntry.nameE "a" "b", DiffEntry.starsE 5] := rfl

/- ## Download & install engine (skill_downloader.py) -/

/-- The scan of `re.search("github\\.com/([^/]+)/([^/]+)", url)`: at each
position, the literal `github.com/` followed by two non-empty `/`-free
segments; on failure the scan resumes one character further. -/
def inferSearch : List Char → Option (List Char × List Char)
  | [] => none
  | c :: rest =>
    (if "github.com/".toList.isPrefixOf (c :: rest) then
      match splitOnChar '/' ((c :: rest).drop 11) with
      | owner :: repo :: _ =>
        if owner.isEmpty || repo.isEmpty then none else some (owner, repo)
      | _ => none
    else none).orElse (fun _ => inferSearch rest)

/-- Model of `skill_downloader.infer_download_url`: extract `owner/repo` from the
GitHub URL and return the first candidate release-asset address,
`.../releases/latest/download/{skill_name}.skill` — the loop over the other
candidate filenames returns on its first iteration. -/
def infer_download_url (githubUrl skillName : String) : Option String :=
  match inferSearch githubUrl.toList with
  | some (owner, repo) =>
    some ("https://github.com/" ++ owner.asString ++ "/" ++ repo.asString ++
      "/releases/latest/download/" ++ skillName ++ ".skill")
  | none => none

example :
    infer_download_url "https://github.com/own/rep/tree/main/skills/x" "pdf-tools" =
      some "https://github.com/own/rep/releases/latest/download/pdf-tools.skill" := rfl
example : infer_download_url "https://example.com/own/rep" "x" = none := rfl

/-- The result of one call of `skill_downloader.download_skill_file`.
In the source the function returns `bool`; the three constructors stand for
its three distinct observable exits: success, the non-exceptional 404 branch
(`if response.status_code == 404`, printed as `File not found (404)` before
`raise_for_status` is reached), and the `except RequestException` branch
(printed with the exception's own text). -/
inductive DownloadFileOutcome where
  | dOk
  | dNotFound
  | dRequestFailed (detail : String)
deriving DecidableEq

/-- What the transport produced for the archive download request. -/
inductive DownloadSim where
  | response (status : Nat)
  | timedOut
  | connectionError (detail : String)
deriving DecidableEq

/-- Model of `skill_downloader.download_skill_file`: a 404 status is checked before
`raise_for_status` and returns without raising; every other 4xx/5xx status
raises `HTTPError`, which — like timeouts and connection errors — is caught
by the `except requests.exceptions.RequestException` clause and also
returned as failure. -/
def download_skill_file : DownloadSim → DownloadFileOutcome
  | .response s =>
    if s = 404 then .dNotFound
    else if 400 ≤ s ∧ s ≤ 599 then .dRequestFailed ("HTTP error " ++ toString s)
    else .dOk
  | .timedOut => .dRequestFailed "timeout"
  | .connectionError d => .dRequestFailed d

/-- The skills-root filesystem as the install engine sees it: the set of
directory names present in the root, and whether the sibling backup
directory (`{skill}.backup`) currently exists. -/
structure FsState where
  dirs : List String
  backupPresent : Bool
deriving DecidableEq

/-- Add a directory name if not already present (extraction/copy target). -/
def insertDir (n : String) (l : List String) : List String :=
  if n ∈ l then l else l ++ [n]

/-- Model of `zip_ref.extractall(skills_dir)`: every entry's first path component
becomes (or merges into) a top-level directory of the root. -/
def addTops (namelist : List String) (dirs : List String) : List String :=
  namelist.foldl (fun acc e => insertDir (topComponent e) acc) dirs

/-- How one call of `skill_downloader.install_skill_update` terminates.
The source returns `bool` (`updateSuccess` ↦ `True`, all others ↦ `False`);
the constructors stand for its distinct return points, each of which prints
its own diagnostic — in particular `installFailedRestoreFailed` is the only
exit printing `Could not restore backup`, the most severe condition (old
directory removed, new one not installed). -/
inductive UpdateOutcome where
  | skillNotFound
  | noDownloadUrl
  | downloadFailed (d : DownloadFileOutcome)
  | invalidBadZip
  | invalidEmpty
  | removeOldFailed
  | updateSuccess
  | installFailedRestored
  | installFailedRestoreFailed
  | installFailedNoBackup
deriving DecidableEq

/-- Model of `bool` actually returned by `install_skill_update` for each exit. -/
def UpdateOutcome.toBool : UpdateOutcome → Bool
  | .updateSuccess => true
  | _ => false

/-- One run of the install engine: the outcome, the filesystem states
observed up to and including the start of the REPLACE step (the
`shutil.rmtree(skill_dir)` call), the states after it, whether
`install_skill` (extraction) was ever invoked, the final state, and the
installed directory name reported on success. -/
structure RunResult where
  outcome : UpdateOutcome
  preReplace : List FsState
  postReplace : List FsState
  extractionAttempted : Bool
  final : FsState
  installedName : Option String
deriving DecidableEq

/-- All states of a run in order. -/
def RunResult.states (r : RunResult) : List FsState :=
  r.preReplace ++ r.postReplace

/-- The injected environment and failure points of one
`install_skill_update` run: the skills root, the arguments, and whether each
effectful step succeeds. -/
structure UpdateCfg where
  root : List RootEntry
  skillName : String
  downloadUrl : Option String
  githubUrl : Option String
  backup : Bool
  backupSucceeds : Bool
  download : DownloadSim
  zipNamelist : Option (List String)
  removeOldSucceeds : Bool
  extractSucceeds : Bool
  restoreSucceeds : Bool
deriving DecidableEq

/-- The search loop at the top of `install_skill_update`: the first
immediate subdirectory with a `SKILL.md` whose front-matter `name`
(lowercased) equals the lowercased requested name. -/
def find_skill_dir (root : List RootEntry) (skillName : String) :
    Option String :=
  (root.find? fun e =>
      e.isDir && (skillMdContent e).isSome &&
        (sLower ((extract_frontmatter (skillMdContent e)).lookup "name" |>.getD "") ==
          sLower skillName)).map (·.name)

/-- Model of `if not download_url and github_url: download_url = infer_download_url(...)`. -/
def effectiveUrl (cfg : UpdateCfg) : Option String :=
  if !pyTruthy cfg.downloadUrl && pyTruthy cfg.githubUrl then
    infer_download_url (cfg.githubUrl.getD "") cfg.skillName
  else cfg.downloadUrl

/-- The install-failure handler of `install_skill_update` (its final
`except` block): restore the old directory from the backup when one exists;
a failed restore leaves the backup directory itself in place (nothing
deletes it) and is the only exit printing `Could not restore backup`. -/
def installFailBranch (cfg : UpdateCfg) (origName : String) (bp : Bool)
    (s0 s1 s2 : FsState) : RunResult :=
  if bp then
    if cfg.restoreSucceeds then
      let s3 : FsState := ⟨insertDir origName s2.dirs, true⟩
      ⟨.installFailedRestored, [s0, s1], [s2, s3], true, s3, none⟩
    else ⟨.installFailedRestoreFailed, [s0, s1], [s2, s2], true, s2, none⟩
  else ⟨.installFailedNoBackup, [s0, s1], [s2], true, s2, none⟩

/-- The REPLACE step of `install_skill_update`: remove the old directory —
on failure ("Could not remove old installation") the backup, if present, is
itself removed (`shutil.rmtree(backup_path)`) and the run aborts before any
extraction; on success, extract via `install_skill`, then on success delete
the backup and report the installed path, and on failure run the restore
handler. -/
def replacePhase (cfg : UpdateCfg) (origName : String) (dirs0 : List String)
    (bp : Bool) (ns : List String) (s0 s1 : FsState) : RunResult :=
  if cfg.removeOldSucceeds then
    let s2 : FsState := ⟨dirs0.erase origName, bp⟩
    if cfg.extractSucceeds then
      match install_skill ns with
      | .ok topName =>
        let s3 : FsState := ⟨addTops ns s2.dirs, bp⟩
        let s4 : FsState := ⟨s3.dirs, false⟩
        ⟨.updateSuccess, [s0, s1], [s2, s3, s4], true, s4, some topName⟩
      | .error _ => installFailBranch cfg origName bp s0 s1 s2
    else installFailBranch cfg origName bp s0 s1 s2
  else
    let s2 : FsState := ⟨dirs0, false⟩
    ⟨.removeOldFailed, [s0, s1], [s2], false, s2, none⟩

/-- Model of `skill_downloader.install_skill_update`: locate the installed directory,
resolve the download address, create the backup (its failure is a warning
only), download, validate the archive, then REPLACE with
commit-or-rollback.  The filesystem states are: `s0` before the backup,
`s1` after the backup attempt; download and validation touch only the
temporary directory, so `s1` still holds when REPLACE starts. -/
def install_skill_update (cfg : UpdateCfg) : RunResult :=
  let dirs0 := cfg.root.map (·.name)
  let s0 : FsState := ⟨dirs0, false⟩
  match find_skill_dir cfg.root cfg.skillName with
  | none => ⟨.skillNotFound, [s0], [], false, s0, none⟩
  | some origName =>
    if !pyTruthy (effectiveUrl cfg) then ⟨.noDownloadUrl, [s0], [], false, s0, none⟩
    else
      let bp := cfg.backup && cfg.backupSucceeds
      let s1 : FsState := ⟨dirs0, bp⟩
      match download_skill_file cfg.download with
      | .dOk =>
        match cfg.zipNamelist with
        | none => ⟨.invalidBadZip, [s0, s1], [], false, s1, none⟩
        | some ns =>
          if ns.isEmpty then ⟨.invalidEmpty, [s0, s1], [], false, s1, none⟩
          else replacePhase cfg origName dirs0 bp ns s0 s1
      | d => ⟨.downloadFailed d, [s0, s1], [], false, s1, none⟩

/-- A one-package skills root: `pdf-tools` installed with a minimal manifest. -/
def pdfRoot : List RootEntry :=
  [⟨"pdf-tools", true, [("SKILL.md", "---\nname: pdf-tools\n---")], [], 0⟩]

/-- A baseline run configuration for `pdf-tools`: direct download URL,
backup enabled and succeeding, download and archive fine, every later step
succeeding. -/
def baseCfg : UpdateCfg :=
  ⟨pdfRoot, "pdf-tools", some "https://example.com/pdf-tools.skill", none,
    true, true, .response 200, some ["pdf-tools/SKILL.md"], true, true, true⟩

example : find_skill_dir pdfRoot "pdf-tools" = some "pdf-tools" := rfl
example : find_skill_dir pdfRoot "PDF-Tools" = some "pdf-tools" := rfl
example :
    (install_skill_update baseCfg).outcome = .updateSuccess ∧
      (install_skill_update baseCfg).final = ⟨["pdf-tools"], false⟩ := by
  exact ⟨rfl, rfl⟩
example :
    (install_skill_update { baseCfg with removeOldSucceeds := false }).final =
      ⟨["pdf-tools"], false⟩ := rfl
example :
    (install_skill_update { baseCfg with extractSucceeds := false }).final =
      ⟨["pdf-tools"], true⟩ := rfl
example :
    (install_skill_update
        { baseCfg with extractSucceeds := false, restoreSucceeds := false }) =
      ⟨.installFailedRestoreFailed, [⟨["pdf-tools"], false⟩, ⟨["pdf-tools"], true⟩],
        [⟨[], true⟩, ⟨[], true⟩], true, ⟨[], true⟩, none⟩ := rfl
example :
    (install_skill_update { baseCfg with download := .response 404 }).outcome =
      .downloadFailed .dNotFound := rfl

/- ## Helper lemmas -/

theorem mem_insertDir_self (n : String) (l : List String) : n ∈ insertDir n l := by
  unfold insertDir; split
  · assumption
  · simp

theorem mem_insertDir_of_mem (a n : String) (l : List String) (h : a ∈ l) :
    a ∈ insertDir n l := by
  unfold insertDir; split
  · exact h
  · exact List.mem_append_left _ h

theorem mem_addTops_of_mem_dirs (ns : List String) (dirs : List String)
    (a : String) (h : a ∈ dirs) : a ∈ addTops ns dirs := by
  induction ns generalizing dirs with
  | nil => exact h
  | cons e rest ih => exact ih _ (mem_insertDir_of_mem _ _ _ h)

theorem mem_addTops_of_mem (ns : List String) (dirs : List String) (e : String)
    (h : e ∈ ns) : topComponent e ∈ addTops ns dirs := by
  induction ns generalizing dirs with
  | nil => cases h
  | cons x rest ih =>
    rcases List.mem_cons.mp h with h | h
    · subst h
      exact mem_addTops_of_mem_dirs rest _ _ (mem_insertDir_self _ _)
    · exact ih _ h

theorem find_skill_dir_mem (root : List RootEntry) (n d : String)
    (h : find_skill_dir root n = some d) : d ∈ root.map (·.name) := by
  unfold find_skill_dir at h
  rcases Option.map_eq_some'.mp h with ⟨e, he, hname⟩
  exact hname ▸ List.mem_map_of_mem _ (List.mem_of_find?_eq_some he)

theorem effectiveUrl_of_truthy (cfg : UpdateCfg)
    (h : pyTruthy cfg.downloadUrl = true) : effectiveUrl cfg = cfg.downloadUrl := by
  unfold effectiveUrl; rw [h]; simp

/- ## Claim C1 -/

/-- The run of claim C1's failing input: `pdf-tools` installed, backup
enabled and created, download and validation succeed, and the
`shutil.rmtree(skill_dir)` of the REPLACE step fails. -/
def c1cfg : UpdateCfg := { baseCfg with removeOldSucceeds := false }

/-- C1 (code bug, evaluation at the failing input): when removal of the old
installed directory fails during REPLACE, the engine does abort without
proceeding to extraction, but it *removes* the backup directory
(`skill_downloader.py` lines 206-209) instead of preserving it: the backup
existed when REPLACE started and is gone in the final state, with nothing
restored, contradicting the spec's "abort and preserve the backup" (the
code's own comment says "Try to remove backup and restore", yet no restore
happens). -/
theorem c1_remove_failure_deletes_backup :
    (install_skill_update c1cfg).outcome = .removeOldFailed ∧
    (install_skill_update c1cfg).extractionAttempted = false ∧
    (install_skill_update c1cfg).preReplace =
      [⟨["pdf-tools"], false⟩, ⟨["pdf-tools"], true⟩] ∧
    (install_skill_update c1cfg).final = ⟨["pdf-tools"], false⟩ ∧
    (install_skill_update c1cfg).outcome.toBool = false :=
  ⟨rfl, rfl, rfl, rfl, rfl⟩

/- ## Claim C4 -/

/-- C4 counterexample: a 401 whose body is not parseable JSON does not
produce an authentication `APIRequestError` with a generic message — the
JSON decode error raised by `response.json()` inside the `except HTTPError`
handler propagates uncaught. -/
theorem c4_counterexample_unparseable_401 :
    api_request_outcome 10 (.httpResponse 401 none) = ApiOutcome.jsonDecodeError ∧
    ApiOutcome.jsonDecodeError ≠
      ApiOutcome.apiRequestError "API authentication failed: Invalid API key" :=
  ⟨rfl, by decide⟩

/-- C4 (amended): on HTTP 401 with a parseable body the gateway raises an
authentication `APIRequestError` whose message appends the body's
`error.message` (so it contains it), or the generic `"Invalid API key"` when
the parsed body lacks one; when the body is *not* parseable JSON the JSON
decode error propagates instead of any authentication error. -/
theorem c4_auth_error_message (t : Nat) (b : BodyJson) (m : String) :
    (api_request_outcome t (.httpResponse 401 (some b)) =
      .apiRequestError
        ("API authentication failed: " ++ b.errorMessage.getD "Invalid API key")) ∧
    (b.errorMessage = some m →
      api_request_outcome t (.httpResponse 401 (some b)) =
        .apiRequestError ("API authentication failed: " ++ m)) ∧
    (api_request_outcome t (.httpResponse 401 none) = ApiOutcome.jsonDecodeError) := by
  refine ⟨by simp [api_request_outcome], ?_, by simp [api_request_outcome]⟩
  intro h
  simp [api_request_outcome, h]

/-- C4 witness: scenario B — body `{"error": {"message": "bad key"}}` yields
an authentication failure containing `"bad key"`. -/
theorem c4_auth_error_message_witness :
    api_request_outcome 10 (.httpResponse 401 (some ⟨some "bad key"⟩)) =
      .apiRequestError ("API authentication failed: " ++ "bad key") ∧
    strContains "bad key" "API authentication failed: bad key" = true :=
  ⟨(c4_auth_error_message 10 ⟨some "bad key"⟩ "bad key").2.1 rfl, by decide⟩

/- ## Claim C5 -/

/-- C5 counterexample: an explicit *empty* key argument is used as-is
(`make_api_request` only checks `api_key is None`), so resolution does not
return the first non-empty usable value — here the environment variable
holds `"envkey"` and resolution still yields `""`. -/
theorem c5_counterexample_explicit_empty :
    resolve_request_key (some "") (some "envkey") none none = .ok "" ∧
    resolve_request_key (some "") (some "envkey") none none ≠ .ok "envkey" :=
  ⟨rfl, fun h => absurd (Except.ok.inj (rfl.trans h)) (by decide)⟩

/-- The acceptance condition of the development-key file in
`utils.load_api_key`: stripped content non-empty and not a comment. -/
def devUsable (c : String) : Bool :=
  !(sTrim c == "") && !(sStartsWith (sTrim c) "#")

/-- The acceptance condition of the template file in `utils.load_api_key`:
additionally free of the `your_api_key_here` placeholder. -/
def tmplUsable (c : String) : Bool :=
  devUsable c && !(strContains "your_api_key_here" (sTrim c))

/-- C5 (amended): the resolution order is explicit argument, then
environment variable, then development file, then template file — but an
explicit argument is used whenever it is *given*, even when empty; among
the remaining sources the first usable value wins (environment: truthy,
used untrimmed; files: stripped, non-empty, not a comment; template file
additionally without the placeholder marker), a template file containing
the placeholder or starting with `#` never yields a credential, and when
nothing is usable resolution fails with the `APIKeyError` message. -/
theorem c5_credential_precedence (explicitKey env devFile tmpl : Option String) :
    (∀ k, explicitKey = some k →
      resolve_request_key explicitKey env devFile tmpl = .ok k) ∧
    (explicitKey = none →
      resolve_request_key explicitKey env devFile tmpl =
        load_api_key env devFile tmpl) ∧
    (pyTruthy env = true → load_api_key env devFile tmpl = .ok (env.getD "")) ∧
    (∀ c, pyTruthy env = false → devFile = some c → devUsable c = true →
      load_api_key env devFile tmpl = .ok (sTrim c)) ∧
    (∀ c, pyTruthy env = false → devFile = some c → devUsable c = false →
      load_api_key env devFile tmpl = tryTemplateFile tmpl) ∧
    (pyTruthy env = false → devFile = none →
      load_api_key env devFile tmpl = tryTemplateFile tmpl) ∧
    (∀ c, tmpl = some c → tmplUsable c = true →
      tryTemplateFile tmpl = .ok (sTrim c)) ∧
    (∀ c, tmpl = some c → tmplUsable c = false →
      tryTemplateFile tmpl = .error noKeyMsg) ∧
    (tmpl = none → tryTemplateFile tmpl = .error noKeyMsg) := by
  refine ⟨?_, ?_, ?_, ?_, ?_, ?_, ?_, ?_, ?_⟩
  · intro k h; rw [h]; rfl
  · intro h; rw [h]; rfl
  · intro h; unfold load_api_key; rw [h]; simp
  · intro c he hd hu
    unfold devUsable at hu
    unfold load_api_key
    simp only [he, hd, Bool.false_eq_true, if_false, hu, if_true]
  · intro c he hd hu
    unfold devUsable at hu
    unfold load_api_key
    simp only [he, hd, Bool.false_eq_true, if_false, hu]
  · intro he hd; unfold load_api_key; rw [he, hd]; simp
  · intro c ht hu
    unfold tmplUsable devUsable at hu
    unfold tryTemplateFile
    simp only [ht, hu, if_true]
  · intro c ht hu
    unfold tmplUsable devUsable at hu
    unfold tryTemplateFile
    simp only [ht, hu, Bool.false_eq_true, if_false]
  · intro h; rw [h]; rfl

/-- C5 witness: with no explicit argument and no environment variable the
(whitespace-padded) development file wins, stripped. -/
theorem c5_credential_precedence_witness :
    resolve_request_key none none (some " devkey ") none = .ok "devkey" := by
  have h := c5_credential_precedence none none (some " devkey ") none
  rw [h.2.1 rfl, h.2.2.2.1 " devkey " rfl rfl (by decide)]
  rfl

/- ## Claim C9 -/

/-- C9: a successful engine run on a validated non-empty archive reports
success, and the installed directory it reports is named after the first
path component of the archive's first entry (`install_skill`), which is
indeed present in the final skills root. -/
theorem c9_installed_directory_name (cfg : UpdateCfg) (origName : String)
    (ns : List String)
    (hfind : find_skill_dir cfg.root cfg.skillName = some origName)
    (hurl : pyTruthy cfg.downloadUrl = true)
    (hdl : download_skill_file cfg.download = .dOk)
    (hzip : cfg.zipNamelist = some ns) (hns : ns ≠ [])
    (hrm : cfg.removeOldSucceeds = true) (hex : cfg.extractSucceeds = true) :
    (install_skill_update cfg).outcome = .updateSuccess ∧
    (install_skill_update cfg).installedName = some (topComponent (ns.headD "")) ∧
    install_skill ns = .ok (topComponent (ns.headD "")) ∧
    topComponent (ns.headD "") ∈ (install_skill_update cfg).final.dirs := by
  rcases ns with _ | ⟨first, rest⟩
  · exact absurd rfl hns
  · have hinst : install_skill (first :: rest) = .ok (topComponent first) := rfl
    unfold install_skill_update
    rw [hfind, effectiveUrl_of_truthy cfg hurl, hurl, hdl, hzip]
    simp only [Bool.not_true, Bool.false_eq_true, if_false, List.isEmpty_cons]
    unfold replacePhase
    rw [hrm, hex]
    simp only [if_true, hinst, List.headD_cons]
    refine ⟨by trivial, by trivial, by trivial, ?_⟩
    exact mem_addTops_of_mem _ _ _ (List.mem_cons_self _ _)

/-- C9 witness: scenario A — the one-entry archive `pdf-tools/SKILL.md`
installs a directory named `pdf-tools`. -/
theorem c9_installed_directory_name_witness :
    (install_skill_update baseCfg).installedName = some "pdf-tools" ∧
    (install_skill_update baseCfg).outcome = .updateSuccess ∧
    "pdf-tools" ∈ (install_skill_update baseCfg).final.dirs := by
  have h := c9_installed_directory_name baseCfg "pdf-tools" ["pdf-tools/SKILL.md"]
    rfl rfl rfl rfl (by decide) rfl rfl
  exact ⟨h.2.1, h.1, h.2.2.2⟩

/- ## Claim C6 -/

theorem c6_engine_eq (cfg : UpdateCfg) (origName : String)
    (hfind : find_skill_dir cfg.root cfg.skillName = some origName)
    (hurl : pyTruthy cfg.downloadUrl = true)
    (hdl : download_skill_file cfg.download ≠ .dOk) :
    install_skill_update cfg =
      ⟨.downloadFailed (download_skill_file cfg.download),
        [⟨cfg.root.map (·.name), false⟩,
         ⟨cfg.root.map (·.name), cfg.backup && cfg.backupSucceeds⟩],
        [], false,
        ⟨cfg.root.map (·.name), cfg.backup && cfg.backupSucceeds⟩, none⟩ := by
  unfold install_skill_update
  rw [hfind, effectiveUrl_of_truthy cfg hurl, hurl]
  simp only [Bool.not_true, Bool.false_eq_true, if_false]

/-- C6: every download failure aborts the engine before any destructive
step — extraction is never attempted, every observed filesystem state still
has exactly the initial directories, and a created backup is still present
at the end; a 404 response takes the distinct non-exceptional
`dNotFound` exit of `download_skill_file` (returned, not raised, and
distinct from the `dRequestFailed` exits used for other HTTP errors), and
the run reports that download failure. -/
theorem c6_download_failure_nondestructive (cfg : UpdateCfg) (origName : String)
    (hfind : find_skill_dir cfg.root cfg.skillName = some origName)
    (hurl : pyTruthy cfg.downloadUrl = true)
    (hdl : download_skill_file cfg.download ≠ .dOk) :
    (install_skill_update cfg).outcome =
      .downloadFailed (download_skill_file cfg.download) ∧
    (install_skill_update cfg).extractionAttempted = false ∧
    (∀ s ∈ (install_skill_update cfg).states, s.dirs = cfg.root.map (·.name)) ∧
    (cfg.backup = true → cfg.backupSucceeds = true →
      (install_skill_update cfg).final.backupPresent = true) ∧
    (cfg.download = .response 404 → download_skill_file cfg.download = .dNotFound) ∧
    (∀ d, DownloadFileOutcome.dNotFound ≠ DownloadFileOutcome.dRequestFailed d) := by
  rw [c6_engine_eq cfg origName hfind hurl hdl]
  refine ⟨rfl, rfl, ?_, ?_, ?_, ?_⟩
  · intro s hs
    simp only [RunResult.states, List.append_nil, List.mem_cons,
      List.not_mem_nil, or_false] at hs
    rcases hs with h | h <;> rw [h]
  · intro h1 h2; simp [h1, h2]
  · intro h; rw [h]; rfl
  · intro d h; cases h

/-- C6 witness: scenario C at a concrete configuration — a 404 download
leaves `pdf-tools` installed and the backup on disk. -/
theorem c6_download_failure_nondestructive_witness :
    (install_skill_update { baseCfg with download := .response 404 }).outcome =
      .downloadFailed .dNotFound ∧
    (install_skill_update { baseCfg with download := .response 404 }).final =
      ⟨["pdf-tools"], true⟩ := by
  have h := c6_download_failure_nondestructive
    { baseCfg with download := .response 404 } "pdf-tools" rfl rfl (by decide)
  exact ⟨h.1, rfl⟩

/- ## Claim C2 -/

theorem c2_run_cases (cfg : UpdateCfg) (origName : String) (dirs0 : List String)
    (hd0 : dirs0 = cfg.root.map (·.name))
    (hfind : find_skill_dir cfg.root cfg.skillName = some origName)
    (hurl : pyTruthy cfg.downloadUrl = true)
    (hbp : (cfg.backup && cfg.backupSucceeds) = true) :
    (∃ d, install_skill_update cfg =
      ⟨.downloadFailed d, [⟨dirs0, false⟩, ⟨dirs0, true⟩], [], false,
        ⟨dirs0, true⟩, none⟩) ∨
    install_skill_update cfg =
      ⟨.invalidBadZip, [⟨dirs0, false⟩, ⟨dirs0, true⟩], [], false,
        ⟨dirs0, true⟩, none⟩ ∨
    install_skill_update cfg =
      ⟨.invalidEmpty, [⟨dirs0, false⟩, ⟨dirs0, true⟩], [], false,
        ⟨dirs0, true⟩, none⟩ ∨
    install_skill_update cfg =
      ⟨.removeOldFailed, [⟨dirs0, false⟩, ⟨dirs0, true⟩], [⟨dirs0, false⟩], false,
        ⟨dirs0, false⟩, none⟩ ∨
    (∃ first rest, cfg.zipNamelist = some (first :: rest) ∧
      (install_skill_update cfg =
        ⟨.updateSuccess, [⟨dirs0, false⟩, ⟨dirs0, true⟩],
          [⟨dirs0.erase origName, true⟩,
           ⟨addTops (first :: rest) (dirs0.erase origName), true⟩,
           ⟨addTops (first :: rest) (dirs0.erase origName), false⟩], true,
          ⟨addTops (first :: rest) (dirs0.erase origName), false⟩,
          some (topComponent first)⟩ ∨
       install_skill_update cfg =
        ⟨.installFailedRestored, [⟨dirs0, false⟩, ⟨dirs0, true⟩],
          [⟨dirs0.erase origName, true⟩,
           ⟨insertDir origName (dirs0.erase origName), true⟩], true,
          ⟨insertDir origName (dirs0.erase origName), true⟩, none⟩ ∨
       install_skill_update cfg =
        ⟨.installFailedRestoreFailed, [⟨dirs0, false⟩, ⟨dirs0, true⟩],
          [⟨dirs0.erase origName, true⟩, ⟨dirs0.erase origName, true⟩], true,
          ⟨dirs0.erase origName, true⟩, none⟩)) := by
  subst hd0
  unfold install_skill_update
  rw [hfind, effectiveUrl_of_truthy cfg hurl, hurl, hbp]
  simp only [Bool.not_true, Bool.false_eq_true, if_false]
  cases hd : download_skill_file cfg.download with
  | dNotFound => exact Or.inl ⟨_, rfl⟩
  | dRequestFailed d => exact Or.inl ⟨_, rfl⟩
  | dOk =>
    cases hzip : cfg.zipNamelist with
    | none => exact Or.inr (Or.inl (by trivial))
    | some ns =>
      rcases ns with _ | ⟨first, rest⟩
      · exact Or.inr (Or.inr (Or.inl (by trivial)))
      · simp only [List.isEmpty_cons, Bool.false_eq_true, if_false]
        unfold replacePhase
        cases hrm : cfg.removeOldSucceeds with
        | false =>
          simp only [Bool.false_eq_true, if_false]
          exact Or.inr (Or.inr (Or.inr (Or.inl (by trivial))))
        | true =>
          simp only [if_true]
          cases hex : cfg.extractSucceeds with
          | true =>
            simp only [if_true]
            exact Or.inr (Or.inr (Or.inr (Or.inr
              ⟨first, rest, rfl, Or.inl (by trivial)⟩)))
          | false =>
            simp only [Bool.false_eq_true, if_false]
            unfold installFailBranch
            simp only [if_true]
            cases hres : cfg.restoreSucceeds with
            | true =>
              simp only [if_true]
              exact Or.inr (Or.inr (Or.inr (Or.inr
                ⟨first, rest, rfl, Or.inr (Or.inl (by trivial))⟩)))
            | false =>
              simp only [Bool.false_eq_true, if_false]
              exact Or.inr (Or.inr (Or.inr (Or.inr
                ⟨first, rest, rfl, Or.inr (Or.inr (by trivial))⟩)))

/-- Claim C2's counterexample configuration: a normal, fully successful
update of `pdf-tools` whose archive's top-level entry is named
`other-skill`. -/
def c2cfg : UpdateCfg := { baseCfg with zipNamelist := some ["other-skill/SKILL.md"] }

/-- C2 counterexample: with backup enabled and succeeding, a *successful*
run whose archive top-level name differs from the installed directory's
name ends in a reachable state where neither the original directory nor the
backup exists — and that state belongs to a successful commit, not to a
failed restore. -/
theorem c2_counterexample_commit_other_name :
    (install_skill_update c2cfg).final ∈ (install_skill_update c2cfg).states ∧
    "pdf-tools" ∉ (install_skill_update c2cfg).final.dirs ∧
    (install_skill_update c2cfg).final.backupPresent = false ∧
    (install_skill_update c2cfg).outcome = .updateSuccess ∧
    (install_skill_update c2cfg).outcome ≠ .installFailedRestoreFailed := by
  decide

/-- C2 (amended): with backup enabled and backup creation succeeding, and
an archive whose entries all install under the original directory's name,
*every* state of the run — in particular every state up to and including
the start of REPLACE — has the original directory or the backup on disk;
consequently a state with both absent can only be the restore-failed exit
(in the code even that exit keeps the backup directory itself on disk), and
the restore-failed exit is reported as the distinct
`installFailedRestoreFailed` class with a failing return value.  Without
the archive-name proviso a successful commit also leaves both absent
(`c2_counterexample_commit_other_name`). -/
theorem c2_backup_invariant (cfg : UpdateCfg) (origName : String)
    (hfind : find_skill_dir cfg.root cfg.skillName = some origName)
    (hurl : pyTruthy cfg.downloadUrl = true)
    (hb : cfg.backup = true) (hbs : cfg.backupSucceeds = true)
    (htop : ∀ e ∈ cfg.zipNamelist.getD [], topComponent e = origName) :
    (∀ s ∈ (install_skill_update cfg).states,
        origName ∈ s.dirs ∨ s.backupPresent = true) ∧
    (∀ s ∈ (install_skill_update cfg).states,
        origName ∉ s.dirs ∧ s.backupPresent = false →
          (install_skill_update cfg).outcome = .installFailedRestoreFailed) ∧
    ((install_skill_update cfg).outcome = .installFailedRestoreFailed →
      (install_skill_update cfg).final.backupPresent = true ∧
      (install_skill_update cfg).outcome.toBool = false) := by
  have hmem : origName ∈ cfg.root.map (·.name) := find_skill_dir_mem _ _ _ hfind
  have hbp : (cfg.backup && cfg.backupSucceeds) = true := by rw [hb, hbs]; rfl
  have hcases := c2_run_cases cfg origName _ rfl hfind hurl hbp
  have main : (∀ s ∈ (install_skill_update cfg).states,
      origName ∈ s.dirs ∨ s.backupPresent = true) ∧
      ((install_skill_update cfg).outcome = .installFailedRestoreFailed →
        (install_skill_update cfg).final.backupPresent = true ∧
        (install_skill_update cfg).outcome.toBool = false) := by
    rcases hcases with ⟨d, hrun⟩ | hrun | hrun | hrun | ⟨first, rest, hzip, hrun3⟩
    · rw [hrun]
      refine ⟨?_, fun h => nomatch h⟩
      intro s hs
      simp only [RunResult.states, List.append_nil, List.mem_cons,
        List.not_mem_nil, or_false] at hs
      rcases hs with h | h <;> subst h
      · exact Or.inl hmem
      · exact Or.inr rfl
    · rw [hrun]
      refine ⟨?_, fun h => nomatch h⟩
      intro s hs
      simp only [RunResult.states, List.append_nil, List.mem_cons,
        List.not_mem_nil, or_false] at hs
      rcases hs with h | h <;> subst h
      · exact Or.inl hmem
      · exact Or.inr rfl
    · rw [hrun]
      refine ⟨?_, fun h => nomatch h⟩
      intro s hs
      simp only [RunResult.states, List.append_nil, List.mem_cons,
        List.not_mem_nil, or_false] at hs
      rcases hs with h | h <;> subst h
      · exact Or.inl hmem
      · exact Or.inr rfl
    · rw [hrun]
      refine ⟨?_, fun h => nomatch h⟩
      intro s hs
      simp only [RunResult.states, List.cons_append, List.nil_append,
        List.mem_cons, List.not_mem_nil, or_false] at hs
      rcases hs with h | h | h <;> subst h
      · exact Or.inl hmem
      · exact Or.inr rfl
      · exact Or.inl hmem
    · have htopf : topComponent first = origName := by
        apply htop
        rw [hzip]
        exact List.mem_cons_self _ _
      rcases hrun3 with hrun | hrun | hrun
      · rw [hrun]
        refine ⟨?_, fun h => nomatch h⟩
        intro s hs
        simp only [RunResult.states, List.cons_append, List.nil_append,
          List.mem_cons, List.not_mem_nil, or_false] at hs
        rcases hs with h | h | h | h | h <;> subst h
        · exact Or.inl hmem
        · exact Or.inr rfl
        · exact Or.inr rfl
        · exact Or.inr rfl
        · refine Or.inl ?_
          rw [← htopf]
          exact mem_addTops_of_mem _ _ _ (List.mem_cons_self _ _)
      · rw [hrun]
        refine ⟨?_, fun h => nomatch h⟩
        intro s hs
        simp only [RunResult.states, List.cons_append, List.nil_append,
          List.mem_cons, List.not_mem_nil, or_false] at hs
        rcases hs with h | h | h | h <;> subst h
        · exact Or.inl hmem
        · exact Or.inr rfl
        · exact Or.inr rfl
        · exact Or.inr rfl
      · rw [hrun]
        refine ⟨?_, fun _ => ⟨rfl, rfl⟩⟩
        intro s hs
        simp only [RunResult.states, List.cons_append, List.nil_append,
          List.mem_cons, List.not_mem_nil, or_false] at hs
        rcases hs with h | h | h | h <;> subst h
        · exact Or.inl hmem
        · exact Or.inr rfl
        · exact Or.inr rfl
        · exact Or.inr rfl
  refine ⟨main.1, ?_, main.2⟩
  rintro s hs ⟨h1, h2⟩
  rcases main.1 s hs with h | h
  · exact absurd h h1
  · rw [h2] at h
    cases h

/-- C2 witness: the restore-failed run of `pdf-tools` — hypotheses hold at
this configuration and the severe class is reported with the backup still
on disk. -/
theorem c2_backup_invariant_witness :
    (install_skill_update
        { baseCfg with extractSucceeds := false, restoreSucceeds := false
          }).final.backupPresent = true ∧
    (install_skill_update
        { baseCfg with extractSucceeds := false, restoreSucceeds := false
          }).outcome.toBool = false := by
  have h := c2_backup_invariant
    { baseCfg with extractSucceeds := false, restoreSucceeds := false }
    "pdf-tools" rfl rfl rfl rfl (by decide)
  exact h.2.2 rfl

/- ## Claim C3 -/

theorem mem_insertSorted (a b : String) (l : List String) :
    b ∈ insertSorted a l ↔ b = a ∨ b ∈ l := by
  induction l with
  | nil => simp [insertSorted]
  | cons x rest ih =>
    unfold insertSorted
    split
    · simp
    · simp only [List.mem_cons, ih]
      tauto

theorem mem_sortStrings (a : String) (l : List String) :
    a ∈ sortStrings l ↔ a ∈ l := by
  induction l with
  | nil => simp [sortStrings]
  | cons x rest ih =>
    unfold sortStrings
    rw [mem_insertSorted]
    simp [ih]

theorem gismEntry_eq_some (e : RootEntry) (rec : InstalledSkill) :
    gismEntry e = some rec ↔
      e.isDir = true ∧ (get_skill_name_from_md (skillMdContent e)).getD "" ≠ "" ∧
        rec = ⟨(get_skill_name_from_md (skillMdContent e)).getD "", e.name, e.mtime⟩ := by
  unfold gismEntry
  cases hd : e.isDir with
  | false => simp
  | true =>
    simp only [Bool.not_true, Bool.false_eq_true, if_false, true_and]
    cases hc : skillMdContent e with
    | none => simp [get_skill_name_from_md]
    | some c =>
      cases hn : get_skill_name_from_md (some c) with
      | none => simp [hn]
      | some nm =>
        by_cases hnm : nm = ""
        · simp [hn, hnm]
        · simp [hn, hnm, eq_comm]

/-- Subdirectories of an entry dropped (the registry scans never read them). -/
def clearSubdirs (e : RootEntry) : RootEntry :=
  ⟨e.name, e.isDir, e.files, [], e.mtime⟩

theorem lis_inner_clear (root : List RootEntry) :
    (((root.map clearSubdirs).filter
        fun e => e.isDir && (skillMdContent e).isSome).map (·.name)) =
      ((root.filter fun e => e.isDir && (skillMdContent e).isSome).map (·.name)) := by
  rw [List.filter_map,
    show ((fun e : RootEntry => e.isDir && (skillMdContent e).isSome) ∘ clearSubdirs) =
        (fun e : RootEntry => e.isDir && (skillMdContent e).isSome) from
      funext fun e => rfl,
    List.map_map,
    show ((fun e : RootEntry => e.name) ∘ clearSubdirs) =
        (fun e : RootEntry => e.name) from funext fun e => rfl]

theorem gism_entry_clear (e : RootEntry) :
    gismEntry (clearSubdirs e) = gismEntry e := rfl

/-- C3 counterexample: a subdirectory whose `SKILL.md` yields no name at
all is still reported by `utils.list_installed_skills` (which never reads
the manifest), though the metadata scan excludes it. -/
theorem c3_counterexample_nameless_listed :
    list_installed_skills [⟨"foo", true, [("SKILL.md", "just text")], [], 0⟩] =
      ["foo"] ∧
    get_skill_name_from_md (some "just text") = none ∧
    (extract_frontmatter (some "just text")).lookup "name" = none ∧
    get_installed_skills_with_metadata
      [⟨"foo", true, [("SKILL.md", "just text")], [], 0⟩] = [] :=
  ⟨rfl, rfl, rfl, rfl⟩

/-- C3 (amended): both registry scans look only at immediate subdirectories
of the root — their result is unchanged by anything nested deeper — and a
subdirectory is reported by `get_installed_skills_with_metadata` iff it
contains `SKILL.md` and that file yields a truthy `name`; but
`list_installed_skills` reports a subdirectory iff it merely *contains*
`SKILL.md`, with no name requirement. -/
theorem c3_registry_scan (root : List RootEntry) (n : String) :
    (n ∈ list_installed_skills root ↔
      ∃ e ∈ root, e.name = n ∧ e.isDir = true ∧ (skillMdContent e).isSome = true) ∧
    ((∃ rec ∈ get_installed_skills_with_metadata root, rec.path = n) ↔
      ∃ e ∈ root, e.name = n ∧ e.isDir = true ∧
        (get_skill_name_from_md (skillMdContent e)).getD "" ≠ "") ∧
    list_installed_skills (root.map clearSubdirs) = list_installed_skills root ∧
    get_installed_skills_with_metadata (root.map clearSubdirs) =
      get_installed_skills_with_metadata root := by
  refine ⟨?_, ?_, ?_, ?_⟩
  · unfold list_installed_skills
    rw [mem_sortStrings]
    simp only [List.mem_map, List.mem_filter, Bool.and_eq_true]
    constructor
    · rintro ⟨e, ⟨he, hdir, hmd⟩, hname⟩
      exact ⟨e, he, hname, hdir, hmd⟩
    · rintro ⟨e, he, hname, hdir, hmd⟩
      exact ⟨e, ⟨he, hdir, hmd⟩, hname⟩
  · unfold get_installed_skills_with_metadata
    simp only [List.mem_filterMap]
    constructor
    · rintro ⟨rec, ⟨e, he, hfe⟩, hpath⟩
      rw [gismEntry_eq_some] at hfe
      refine ⟨e, he, ?_, hfe.1, hfe.2.1⟩
      rw [← hpath, hfe.2.2]
    · rintro ⟨e, he, hname, hdir, hnm⟩
      exact ⟨⟨(get_skill_name_from_md (skillMdContent e)).getD "", e.name, e.mtime⟩,
        ⟨e, he, (gismEntry_eq_some _ _).mpr ⟨hdir, hnm, rfl⟩⟩, hname⟩
  · unfold list_installed_skills
    rw [lis_inner_clear]
  · unfold get_installed_skills_with_metadata
    induction root with
    | nil => rfl
    | cons e rest ih =>
      simp only [List.map_cons, List.filterMap_cons, gism_entry_clear, ih]

/- ## Claim C7 -/

theorem mem_fields_nameE (nameC descC authC : Bool) (ln rn ld rd la ra : String)
    (st : Nat) :
    (∃ l r, DiffEntry.nameE l r ∈
      ((if nameC then [DiffEntry.nameE ln rn] else []) ++
       (if descC then [DiffEntry.descE ld rd] else []) ++
       (if authC then [DiffEntry.authorE la ra] else []) ++
       [DiffEntry.starsE st])) ↔ nameC = true := by
  cases nameC <;> cases descC <;> cases authC <;> simp

theorem mem_fields_descE (nameC descC authC : Bool) (ln rn ld rd la ra : String)
    (st : Nat) :
    (∃ l r, DiffEntry.descE l r ∈
      ((if nameC then [DiffEntry.nameE ln rn] else []) ++
       (if descC then [DiffEntry.descE ld rd] else []) ++
       (if authC then [DiffEntry.authorE la ra] else []) ++
       [DiffEntry.starsE st])) ↔ descC = true := by
  cases nameC <;> cases descC <;> cases authC <;> simp

theorem mem_fields_authorE (nameC descC authC : Bool) (ln rn ld rd la ra : String)
    (st : Nat) :
    (∃ l r, DiffEntry.authorE l r ∈
      ((if nameC then [DiffEntry.nameE ln rn] else []) ++
       (if descC then [DiffEntry.descE ld rd] else []) ++
       (if authC then [DiffEntry.authorE la ra] else []) ++
       [DiffEntry.starsE st])) ↔ authC = true := by
  cases nameC <;> cases descC <;> cases authC <;> simp

theorem mem_fields_starsE (nameC descC authC : Bool) (ln rn ld rd la ra : String)
    (st : Nat) :
    DiffEntry.starsE st ∈
      ((if nameC then [DiffEntry.nameE ln rn] else []) ++
       (if descC then [DiffEntry.descE ld rd] else []) ++
       (if authC then [DiffEntry.authorE la ra] else []) ++
       [DiffEntry.starsE st]) := by
  cases nameC <;> cases descC <;> cases authC <;> simp

theorem neq_cond_iff (a b : String) :
    ((!(a == "") && !(b == "") && !(a == b)) = true) ↔
      (a ≠ "" ∧ b ≠ "" ∧ a ≠ b) := by
  simp [and_assoc]

/-- C7: the field diff of `compare_versions` always contains the `stars`
entry (built from the remote's star count, default `0`), and contains a
`name`/`description`/`author` entry iff both the local and the remote value
of that field are non-empty and unequal. -/
theorem c7_diff_fields (localFm : List (String × String)) (remote : RemoteSkill) :
    (DiffEntry.starsE (remote.stars.getD 0) ∈
      (compare_versions localFm remote).fields) ∧
    ((∃ l r, DiffEntry.nameE l r ∈ (compare_versions localFm remote).fields) ↔
      ((localFm.lookup "name").getD "" ≠ "" ∧ remote.name.getD "" ≠ "" ∧
        (localFm.lookup "name").getD "" ≠ remote.name.getD "")) ∧
    ((∃ l r, DiffEntry.descE l r ∈ (compare_versions localFm remote).fields) ↔
      ((localFm.lookup "description").getD "" ≠ "" ∧
        remote.description.getD "" ≠ "" ∧
        (localFm.lookup "description").getD "" ≠ remote.description.getD "")) ∧
    ((∃ l r, DiffEntry.authorE l r ∈ (compare_versions localFm remote).fields) ↔
      ((localFm.lookup "author").getD "" ≠ "" ∧ remote.author.getD "" ≠ "" ∧
        (localFm.lookup "author").getD "" ≠ remote.author.getD "")) := by
  refine ⟨?_, ?_, ?_, ?_⟩
  · exact mem_fields_starsE _ _ _ _ _ _ _ _ _ _
  · exact (mem_fields_nameE _ _ _ _ _ _ _ _ _ _).trans (neq_cond_iff _ _)
  · exact (mem_fields_descE _ _ _ _ _ _ _ _ _ _).trans (neq_cond_iff _ _)
  · exact (mem_fields_authorE _ _ _ _ _ _ _ _ _ _).trans (neq_cond_iff _ _)

/- ## Claim C8 -/

theorem findExact_some (n : String) (l : List RemoteSkill) (s : RemoteSkill)
    (h : findExactMatch n l = some s) :
    s ∈ l ∧ sLower (s.name.getD "") = sLower n := by
  induction l with
  | nil => cases h
  | cons x rest ih =>
    unfold findExactMatch at h
    by_cases hx : sLower (x.name.getD "") = sLower n
    · rw [if_pos hx] at h
      cases h
      exact ⟨List.mem_cons_self _ _, hx⟩
    · rw [if_neg hx] at h
      rcases ih h with ⟨h1, h2⟩
      exact ⟨List.mem_cons_of_mem _ h1, h2⟩

theorem findExact_none (n : String) (l : List RemoteSkill)
    (h : findExactMatch n l = none) :
    ∀ s ∈ l, sLower (s.name.getD "") ≠ sLower n := by
  induction l with
  | nil => intro s hs; cases hs
  | cons x rest ih =>
    unfold findExactMatch at h
    by_cases hx : sLower (x.name.getD "") = sLower n
    · rw [if_pos hx] at h; cases h
    · rw [if_neg hx] at h
      intro s hs
      rcases List.mem_cons.mp hs with rfl | hs
      · exact hx
      · exact ih h s hs

/-- C8: for a successful search envelope, the lookup returns the first
record whose lowercased name equals the lowercased query when the
list holds one (so a case-insensitive exact match is returned whenever one
exists), otherwise the first (top-ranked) result when the list is
non-empty, and otherwise nothing. -/
theorem c8_remote_match (skillName : String) (resp : SearchResp)
    (hs : resp.success = true) :
    (∀ s, findExactMatch skillName resp.skills = some s →
      search_skill_on_skillsmp skillName resp = some s ∧ s ∈ resp.skills ∧
        sLower (s.name.getD "") = sLower skillName) ∧
    ((∃ s ∈ resp.skills, sLower (s.name.getD "") = sLower skillName) →
      ∃ s, search_skill_on_skillsmp skillName resp = some s ∧ s ∈ resp.skills ∧
        sLower (s.name.getD "") = sLower skillName) ∧
    (findExactMatch skillName resp.skills = none → resp.skills ≠ [] →
      search_skill_on_skillsmp skillName resp = resp.skills.head?) ∧
    (resp.skills = [] → search_skill_on_skillsmp skillName resp = none) := by
  unfold search_skill_on_skillsmp
  rw [hs]
  simp only [Bool.not_true, Bool.false_eq_true, if_false]
  cases hl : resp.skills with
  | nil =>
    refine ⟨?_, ?_, ?_, fun _ => rfl⟩
    · intro s h; cases h
    · rintro ⟨s, hsm, _⟩; cases hsm
    · intro _ hne; exact absurd rfl hne
  | cons s0 rest =>
    cases hf : findExactMatch skillName (s0 :: rest) with
    | some s =>
      have hprop := findExact_some _ _ _ hf
      simp only [hf]
      refine ⟨?_, ?_, ?_, ?_⟩
      · intro s2 h2
        cases h2
        exact ⟨rfl, hprop.1, hprop.2⟩
      · intro _
        exact ⟨s, rfl, hprop.1, hprop.2⟩
      · intro hnone; cases hnone
      · intro h; cases h
    | none =>
      simp only [hf]
      refine ⟨?_, ?_, ?_, ?_⟩
      · intro s2 h2; cases h2
      · rintro ⟨s, hsm, hmatch⟩
        exact absurd hmatch (findExact_none _ _ hf s hsm)
      · intro _ _; rfl
      · intro h; cases h

/-- The remote record of scenario E: a search result named `foo-skill`. -/
def fooSkill : RemoteSkill := ⟨some "foo-skill", none, none, none, none, none, none⟩

/-- C8 witness: scenario E — the local name `Foo-Skill` matches the remote
record named `foo-skill` case-insensitively. -/
theorem c8_remote_match_witness :
    search_skill_on_skillsmp "Foo-Skill" ⟨true, [fooSkill]⟩ = some fooSkill ∧
    sLower (fooSkill.name.getD "") = sLower "Foo-Skill" := by
  have h := (c8_remote_match "Foo-Skill" ⟨true, [fooSkill]⟩ rfl).1 fooSkill rfl
  exact ⟨h.1, h.2.2⟩

/- ## Claim C10 -/

/-- The in-frontmatter accumulation of `extract_frontmatter` over lines that
are not sentinel lines. -/
def fmCollect (ls : List String) (acc : List (String × String)) :
    List (String × String) :=
  ls.foldl
    (fun a l =>
      match parse_kv l with
      | some kv => dictInsert a kv.1 kv.2
      | none => a) acc

theorem fmLoop_break (pre rest : List String) (acc : List (String × String))
    (h : ∀ l ∈ pre, sTrim l ≠ "---") :
    fmLoop true (pre ++ "---" :: rest) acc = fmCollect pre acc := by
  induction pre generalizing acc with
  | nil => rfl
  | cons l pre2 ih =>
    have hl : sTrim l ≠ "---" := h l (List.mem_cons_self _ _)
    show fmLoop true (l :: (pre2 ++ "---" :: rest)) acc = fmCollect (l :: pre2) acc
    unfold fmLoop
    rw [if_neg hl]
    cases hp : parse_kv l with
    | some kv =>
      simp only [hp]
      show fmLoop true (pre2 ++ "---" :: rest) (dictInsert acc kv.1 kv.2) =
        fmCollect (l :: pre2) acc
      rw [ih _ (fun x hx => h x (List.mem_cons_of_mem _ hx))]
      unfold fmCollect
      simp only [List.foldl_cons, hp]
    | none =>
      simp only [hp]
      show fmLoop true (pre2 ++ "---" :: rest) acc = fmCollect (l :: pre2) acc
      rw [ih _ (fun x hx => h x (List.mem_cons_of_mem _ hx))]
      unfold fmCollect
      simp only [List.foldl_cons, hp]

/-- C10: front-matter extraction is total — a read failure yields the empty
mapping — and scoped: the result depends only on the first 30 lines of the
file, and on nothing after the closing sentinel line (lines beyond either
boundary can be replaced arbitrarily without changing the result, so a
`key: value` pair there is never included). -/
theorem c10_frontmatter_scope :
    (extract_frontmatter none = []) ∧
    (∀ c1 c2 : String, (sSplit c1 '\n').take 30 = (sSplit c2 '\n').take 30 →
      extract_frontmatter (some c1) = extract_frontmatter (some c2)) ∧
    (∀ pre rest1 rest2 : List String, (∀ l ∈ pre, sTrim l ≠ "---") →
      ("---" :: pre ++ "---" :: rest1).length ≤ 30 →
      ("---" :: pre ++ "---" :: rest2).length ≤ 30 →
      extract_frontmatter_lines ("---" :: pre ++ "---" :: rest1) =
        extract_frontmatter_lines ("---" :: pre ++ "---" :: rest2)) := by
  refine ⟨rfl, ?_, ?_⟩
  · intro c1 c2 h
    show fmLoop false ((sSplit c1 '\n').take 30) [] =
      fmLoop false ((sSplit c2 '\n').take 30) []
    rw [h]
  · intro pre rest1 rest2 hpre h1 h2
    unfold extract_frontmatter_lines
    rw [List.take_of_length_le h1, List.take_of_length_le h2]
    show fmLoop true (pre ++ "---" :: rest1) [] =
      fmLoop true (pre ++ "---" :: rest2) []
    rw [fmLoop_break pre rest1 [] hpre, fmLoop_break pre rest2 [] hpre]

/-- C10 witness: a pair on line 31 never affects the result, and neither
does a pair after the closing sentinel. -/
theorem c10_frontmatter_scope_witness :
    extract_frontmatter (some "a\na\na\na\na\na\na\na\na\na\na\na\na\na\na\na\na\na\na\na\na\na\na\na\na\na\na\na\na\na\nname: x") = extract_frontmatter (some "a\na\na\na\na\na\na\na\na\na\na\na\na\na\na\na\na\na\na\na\na\na\na\na\na\na\na\na\na\na\nname: y") ∧
    extract_frontmatter_lines ["---", "name: pdf-tools", "---", "author: x"] =
      extract_frontmatter_lines ["---", "name: pdf-tools", "---"] ∧
    extract_frontmatter_lines ["---", "name: pdf-tools", "---", "author: x"] =
      [("name", "pdf-tools")] := by
  refine ⟨c10_frontmatter_scope.2.1 _ _ (by decide), ?_, by decide⟩
  exact c10_frontmatter_scope.2.2 ["name: pdf-tools"] ["author: x"] []
    (by decide) (by decide) (by decide)
